import Mathlib

/-!
Verification of the live-translator backend's ingestion, batching, dispatch
and result-delivery pipeline (`backend/app/main.py`, `backend/app/asr.py`),
as a shallow embedding in Lean.

Conventions of the embedding:
* A raw binary payload is a `List Nat` of bytes.  `np.frombuffer(data,
  dtype=np.float32)` reinterprets each consecutive 4-byte group as one
  sample; we model a sample by the natural number encoding its 4-byte
  little-endian bit pattern (we never do arithmetic on samples, so the bit
  pattern is a faithful stand-in for the float it denotes).  When the byte
  length is not a multiple of 4, `np.frombuffer` raises `ValueError`,
  modelled by `none`.
* A parsed JSON document is a `Json` value; a text payload on which
  `json.loads` raises `JSONDecodeError` is modelled by `Option.none` at the
  call site.  Python `dict` lookup with duplicate JSON keys is last-wins.
* A websocket handle is an opaque `Nat` identifier.
* The per-connection receive loop of `websocket_endpoint` is modelled one
  message at a time by `websocket_endpoint_step`; the result
  `Except.error ()` models an exception escaping the inner handlers, which
  the outer `except Exception` answers by deleting the connection from
  `active_connections` (the connection is torn down and the loop stops).
* The worker loop body of `audio_processor` is modelled by
  `audio_processor_step` over two oracles: the speech engine
  (`model.transcribe`, returning segments or raising) and the transport
  send (`websocket.send_json`, succeeding or raising).
-/

/-- A parsed JSON value, as produced by `json.loads`.  Arrays are not
needed by any code path we model except as "some non-object value"; `num`
stands for any JSON scalar that is not a string/bool/null as well. -/
inductive Json where
  | null : Json
  | bool (b : Bool) : Json
  | num (n : Int) : Json
  | str (s : String) : Json
  | obj (fields : List (String × Json)) : Json
deriving Repr

/-- Python `dict.get(k)` on the object fields produced by `json.loads`:
with duplicate keys the later binding wins, absent keys give `None`. -/
def jsonGet (fields : List (String × Json)) (k : String) : Option Json :=
  fields.foldl (fun acc kv => if kv.1 = k then some kv.2 else acc) none

/-- Python `dict.get(k, default)`. -/
def jsonGetD (fields : List (String × Json)) (k : String) (d : Json) : Json :=
  (jsonGet fields k).getD d

/-- `np.frombuffer(data, dtype=np.float32)` on a byte string whose length
is a multiple of 4: each consecutive little-endian 4-byte group becomes
one sample, kept as its 32-bit bit pattern. -/
def bytesToSamples : List Nat → List Nat
  | b0 :: b1 :: b2 :: b3 :: rest =>
      (b0 + 256 * b1 + 65536 * b2 + 16777216 * b3) :: bytesToSamples rest
  | _ => []

/-- `np.frombuffer(data, dtype=np.float32)`: raises `ValueError` (modelled
by `none`) when the byte length is not a multiple of the 4-byte sample
width, otherwise decodes the samples. -/
def np_frombuffer (data : List Nat) : Option (List Nat) :=
  if data.length % 4 = 0 then some (bytesToSamples data) else none

/-- The per-connection state held in `active_connections[websocket]`:
`{"language": "en", "buffer": []}` at registration.  The language is
whatever JSON value the client supplied (the code stores `msg.get(...)`
without a type check), defaulting to the string `"en"`. -/
structure ConnState where
  language : Json
  buffer : List (List Nat)
deriving Repr

/-- The state installed by `websocket_endpoint` on accept. -/
def initConnState : ConnState := ⟨Json.str "en", []⟩

/-- `AudioTask(ws, chunks, language)` from `main.py`: the batch placed on
`audio_queue` when the buffer threshold is reached. -/
structure AudioTask where
  ws : Nat
  chunks : List (List Nat)
  language : Json
deriving Repr

/-- The batch threshold hard-coded in `websocket_endpoint`
(`if len(...buffer) >= 5`). -/
def BATCH_THRESHOLD : Nat := 5

/-- The binary-message branch of `websocket_endpoint`: decode the chunk
with `np.frombuffer` (a `ValueError` is caught and the whole branch is a
no-op), append it to the buffer, and when the buffer has reached 5 chunks
copy the buffer into an `AudioTask` stamped with the connection's current
language and clear the buffer. -/
def ingest (ws : Nat) (st : ConnState) (data : List Nat) :
    ConnState × Option AudioTask :=
  match np_frombuffer data with
  | none => (st, none)
  | some chunk =>
      let buf := st.buffer ++ [chunk]
      if BATCH_THRESHOLD ≤ buf.length then
        (⟨st.language, []⟩, some ⟨ws, buf, st.language⟩)
      else
        (⟨st.language, buf⟩, none)

/-- The states and emissions after each successive binary ingestion:
entry `k` is the connection state and the optionally cut batch right
after the `(k+1)`-st chunk is handled. -/
def ingestTrace (ws : Nat) (st : ConnState) :
    List (List Nat) → List (ConnState × Option AudioTask)
  | [] => []
  | d :: ds =>
      let r := ingest ws st d
      r :: ingestTrace ws r.1 ds

/-- One inbound websocket message as dispatched on by
`websocket_endpoint`: a text frame carries the result of `json.loads`
(`none` when `json.loads` raises `JSONDecodeError`), a binary frame
carries raw bytes. -/
inductive InMsg where
  | text (payload : Option Json) : InMsg
  | binary (data : List Nat) : InMsg

/-- `msg.get("type") == "set_language"` — true exactly when the `"type"`
key holds the string `"set_language"`. -/
def isSetLanguageMsg : Option Json → Bool
  | some (Json.str s) => s = "set_language"
  | _ => false

/-- One iteration of the `websocket_endpoint` receive loop on an already
received message.  `Except.error ()` models an exception that escapes the
inner handlers (only `json.JSONDecodeError` resp. `ValueError` are caught
there) and reaches the outer `except Exception`, which deletes the
connection from `active_connections`.  In particular a text payload that
parses as JSON but is not an object makes `msg.get` raise
`AttributeError`, which is not caught by the inner handler. -/
def websocket_endpoint_step (ws : Nat) (st : ConnState) :
    InMsg → Except Unit (ConnState × Option AudioTask)
  | InMsg.text none => Except.ok (st, none)
  | InMsg.text (some (Json.obj fields)) =>
      if isSetLanguageMsg (jsonGet fields "type") then
        Except.ok (⟨jsonGetD fields "language" (Json.str "en"), st.buffer⟩, none)
      else
        Except.ok (st, none)
  | InMsg.text (some _) => Except.error ()
  | InMsg.binary data => Except.ok (ingest ws st data)

/-- The `websocket_endpoint` receive loop over a whole sequence of
messages, collecting the batches enqueued on `audio_queue` in order.
Processing stops at the first uncaught exception (the connection dies). -/
def websocket_endpoint_run (ws : Nat) (st : ConnState) :
    List InMsg → Except Unit (ConnState × List AudioTask)
  | [] => Except.ok (st, [])
  | m :: ms =>
      match websocket_endpoint_step ws st m with
      | Except.error e => Except.error e
      | Except.ok (st', b?) =>
          match websocket_endpoint_run ws st' ms with
          | Except.error e => Except.error e
          | Except.ok (st'', bs) => Except.ok (st'', b?.toList ++ bs)

/-- Helper for `pyStrip`: remove leading whitespace characters from a
character list. -/
def dropLeadingSpaces : List Char → List Char
  | [] => []
  | c :: cs => if c.isWhitespace then dropLeadingSpaces cs else c :: cs

/-- Python `str.strip()`: remove leading and trailing whitespace. -/
def pyStrip (s : String) : String :=
  ⟨(dropLeadingSpaces (dropLeadingSpaces s.data).reverse).reverse⟩

/-- One transcription segment as yielded by `model.transcribe` in
`asr.py` (only the `text` attribute is consumed). -/
structure Segment where
  text : String
deriving Repr

/-- The speech engine oracle: `model.transcribe(audio, language, ...)`
together with the iteration over its lazy segments, which either yields a
list of segments or raises (`Except.error ()`). -/
def Engine : Type := List Nat → Json → Except Unit (List Segment)

/-- The transport send oracle: `websocket.send_json(response)` on a given
websocket, which either succeeds or raises. -/
def SendOracle : Type := Nat → Json → Except Unit Unit

/-- `transcribe_audio(audio_np, language)` from `asr.py`: call the engine
and join the stripped segment texts with single spaces, keeping only
segments whose `text` is truthy and strips to a truthy string; any
exception from the engine call is caught and the empty string returned. -/
def transcribe_audio (engine : Engine) (audio : List Nat) (language : Json) :
    String :=
  match engine audio language with
  | Except.error _ => ""
  | Except.ok segments =>
      String.intercalate " "
        ((segments.filter
            (fun s => s.text ≠ "" && pyStrip s.text ≠ "")).map
          (fun s => pyStrip s.text))

/-- `np.concatenate(task.chunks)`: raises `ValueError` on an empty list
of arrays, otherwise concatenates in order. -/
def np_concatenate (chunks : List (List Nat)) : Except Unit (List Nat) :=
  match chunks with
  | [] => Except.error ()
  | _ => Except.ok chunks.flatten

/-- The `{"type": "transcription", "text": text.strip(), "language":
task.language}` response built by `audio_processor`. -/
def transcriptionMsg (text : String) (language : Json) : Json :=
  Json.obj [("type", Json.str "transcription"),
            ("text", Json.str (pyStrip text)),
            ("language", language)]

/-- The observable outcome of `audio_processor` handling one dequeued
`AudioTask`: the registry afterwards, the transcription message actually
delivered (if any), every invocation made of the engine, and every
attempted transport send. -/
structure WorkerStepOut where
  registry : List (Nat × ConnState)
  delivered : Option (Nat × Json)
  engineCalls : List (List Nat × Json)
  sendAttempts : List (Nat × Json)
deriving Repr

/-- The body of `audio_processor` for one dequeued task: concatenate the
chunks (any exception is caught by the surrounding `except Exception` and
the batch dropped), call `transcribe_audio` unconditionally, and when the
text is truthy and strips truthy, send the transcription to the task's
websocket if it is still registered; a send exception is caught and only
logged — the registry is never modified by this path. -/
def audio_processor_step (engine : Engine) (send : SendOracle)
    (registry : List (Nat × ConnState)) (task : AudioTask) : WorkerStepOut :=
  match np_concatenate task.chunks with
  | Except.error _ => ⟨registry, none, [], []⟩
  | Except.ok audio =>
      let text := transcribe_audio engine audio task.language
      if text ≠ "" && pyStrip text ≠ "" then
        if registry.any (fun p => p.1 = task.ws) then
          let response := transcriptionMsg text task.language
          match send task.ws response with
          | Except.ok _ =>
              ⟨registry, some (task.ws, response), [(audio, task.language)],
               [(task.ws, response)]⟩
          | Except.error _ =>
              ⟨registry, none, [(audio, task.language)],
               [(task.ws, response)]⟩
        else
          ⟨registry, none, [(audio, task.language)], []⟩
      else
        ⟨registry, none, [(audio, task.language)], []⟩

/-- The `audio_processor` loop over the tasks currently queued, in FIFO
order, collecting the messages delivered to clients. -/
def audio_processor_run (engine : Engine) (send : SendOracle)
    (registry : List (Nat × ConnState)) : List AudioTask → List (Nat × Json)
  | [] => []
  | t :: ts =>
      let o := audio_processor_step engine send registry t
      o.delivered.toList ++ audio_processor_run engine send o.registry ts

/-- The `/health` endpoint `health_check`: the JSON object literally
returned, over the current registry and queue contents. -/
def health_check (registry : List (Nat × ConnState)) (queue : List AudioTask) :
    List (String × Json) :=
  [("status", Json.str "healthy"),
   ("active_connections", Json.num registry.length),
   ("queue_size", Json.num queue.length)]

theorem ingest_valid (ws : Nat) (lang : Json) (b : List (List Nat))
    (d : List Nat) (h : d.length % 4 = 0) :
    ingest ws ⟨lang, b⟩ d =
      if 5 ≤ b.length + 1 then
        (⟨lang, []⟩, some ⟨ws, b ++ [bytesToSamples d], lang⟩)
      else
        (⟨lang, b ++ [bytesToSamples d]⟩, none) := by
  unfold ingest np_frombuffer
  rw [if_pos h]
  simp [BATCH_THRESHOLD]

theorem ingestTrace_get (ws : Nat) (lang : Json) (b ds : List (List Nat))
    (hval : ∀ d ∈ ds, d.length % 4 = 0) (hb : b.length < 5)
    (k : Nat) (hk : k < ds.length) :
    (ingestTrace ws ⟨lang, b⟩ ds)[k]? =
      some (⟨lang,
              ((b ++ ds.map bytesToSamples).take (b.length + k + 1)).drop
                (5 * ((b.length + k + 1) / 5))⟩,
            if (b.length + k + 1) % 5 = 0 then
              some ⟨ws,
                    ((b ++ ds.map bytesToSamples).take (b.length + k + 1)).drop
                      (b.length + k + 1 - 5),
                    lang⟩
            else none) := by
  induction ds generalizing b k with
  | nil => exact absurd hk (by simp)
  | cons d ds ih =>
    have hd : d.length % 4 = 0 := hval d (List.mem_cons_self d ds)
    have hval' : ∀ x ∈ ds, x.length % 4 = 0 :=
      fun x hx => hval x (List.mem_cons_of_mem d hx)
    simp only [ingestTrace, ingest_valid ws lang b d hd]
    by_cases hfull : b.length = 4
    · rw [if_pos (by omega)]
      cases k with
      | zero =>
        have h5 : b.length + 0 + 1 = 5 := by omega
        have htake : (b ++ bytesToSamples d :: ds.map bytesToSamples).take 5 =
            b ++ [bytesToSamples d] := by
          rw [show (5 : Nat) = b.length + 1 by omega]
          rw [List.take_append]
          simp
        have hlen : (b ++ [bytesToSamples d]).length = 5 := by simp; omega
        simp only [List.map_cons, List.getElem?_cons_zero, h5, htake]
        norm_num
        rw [show (5 : Nat) = (b ++ [bytesToSamples d]).length by omega]
        simp [List.drop_length]
      | succ k =>
        have hk' : k < ds.length := by simpa using hk
        simp only [List.getElem?_cons_succ]
        rw [ih [] hval' (by simp) k hk']
        simp only [List.nil_append, List.length_nil, Nat.zero_add]
        have hA : b ++ (d :: ds).map bytesToSamples =
            (b ++ [bytesToSamples d]) ++ ds.map bytesToSamples := by simp
        have hlen5 : (b ++ [bytesToSamples d]).length = 5 := by simp; omega
        have hn : b.length + (k + 1) + 1 = 5 + (k + 1) := by omega
        have htake : ((b ++ [bytesToSamples d]) ++ ds.map bytesToSamples).take
              (b.length + (k + 1) + 1) =
            (b ++ [bytesToSamples d]) ++ (ds.map bytesToSamples).take (k + 1) := by
          rw [hn, ← hlen5]
          exact List.take_append _
        have hdiv : 5 * ((b.length + (k + 1) + 1) / 5) = 5 + 5 * ((k + 1) / 5) := by
          rw [hn, Nat.add_comm 5 (k + 1), Nat.add_div_right _ (by norm_num)]
          ring
        have hmod5 : (b.length + (k + 1) + 1) % 5 = (k + 1) % 5 := by
          rw [hn, Nat.add_comm 5 (k + 1), Nat.add_mod_right]
        have hdrop1 : ((b ++ [bytesToSamples d]) ++
              (ds.map bytesToSamples).take (k + 1)).drop (5 + 5 * ((k + 1) / 5)) =
            ((ds.map bytesToSamples).take (k + 1)).drop (5 * ((k + 1) / 5)) := by
          rw [← hlen5]
          exact List.drop_append _
        simp only [List.map_cons] at hA ⊢
        rw [hA, htake, hdiv, hmod5, hdrop1]
        by_cases hmod : (k + 1) % 5 = 0
        · have hk5 : 5 ≤ k + 1 := by omega
          have hsub : b.length + (k + 1) + 1 - 5 = 5 + (k + 1 - 5) := by omega
          have hdrop2 : ((b ++ [bytesToSamples d]) ++
                (ds.map bytesToSamples).take (k + 1)).drop (5 + (k + 1 - 5)) =
              ((ds.map bytesToSamples).take (k + 1)).drop (k + 1 - 5) := by
            rw [← hlen5]
            exact List.drop_append _
          rw [hsub, hdrop2]
        · simp [hmod]
    · rw [if_neg (by omega)]
      cases k with
      | zero =>
        have hn : b.length + 0 + 1 = b.length + 1 := by omega
        have hlt5 : b.length + 1 < 5 := by omega
        have htake : (b ++ bytesToSamples d :: ds.map bytesToSamples).take
              (b.length + 1) = b ++ [bytesToSamples d] := by
          rw [List.take_append]
          simp
        simp only [List.map_cons, List.getElem?_cons_zero, hn, htake]
        rw [Nat.mod_eq_of_lt hlt5, Nat.div_eq_of_lt hlt5]
        simp
      | succ k =>
        have hk' : k < ds.length := by simpa using hk
        simp only [List.getElem?_cons_succ]
        rw [ih (b ++ [bytesToSamples d]) hval' (by simp; omega) k hk']
        have hA : (b ++ [bytesToSamples d]) ++ ds.map bytesToSamples =
            b ++ (d :: ds).map bytesToSamples := by simp
        have hlen : (b ++ [bytesToSamples d]).length = b.length + 1 := by simp
        simp only [List.map_cons] at hA ⊢
        rw [hA, hlen]
        have hn : b.length + 1 + k + 1 = b.length + (k + 1) + 1 := by omega
        rw [hn]

theorem np_concatenate_ok {cs : List (List Nat)} {a : List Nat}
    (h : np_concatenate cs = Except.ok a) : a = cs.flatten := by
  unfold np_concatenate at h
  split at h
  · cases h
  · cases h
    rfl

/-- C1: for every connection and every sequence of valid chunks ingested
on it (all byte lengths multiples of 4), with batch threshold 5, the
`k`-th ingestion cuts a batch exactly when `k` is a multiple of 5 and on
no other ingestion; the cut batch's chunk list is exactly the 5 decoded
chunks received since the previous cut, in order (so its samples are
their ordered concatenation), and the connection's buffer is left holding
exactly the decoded chunks since the last cut — in particular it is
cleared at every cut. -/
theorem claim_C1 (ws : Nat) (lang : Json) (ds : List (List Nat))
    (hval : ∀ d ∈ ds, d.length % 4 = 0) (k : Nat) (hk : k < ds.length) :
    (ingestTrace ws ⟨lang, []⟩ ds)[k]? =
      some (⟨lang,
              ((ds.map bytesToSamples).take (k + 1)).drop (5 * ((k + 1) / 5))⟩,
            if (k + 1) % 5 = 0 then
              some ⟨ws,
                    ((ds.map bytesToSamples).take (k + 1)).drop (k + 1 - 5),
                    lang⟩
            else none) := by
  have h := ingestTrace_get ws lang [] ds hval (by simp) k hk
  simpa using h

theorem claim_C1_witness :
    (ingestTrace 7 ⟨Json.str "en", []⟩
        [[1,0,0,0],[2,0,0,0],[3,0,0,0],[4,0,0,0],[5,0,0,0]])[4]? =
      some (⟨Json.str "en", []⟩,
            some ⟨7, [[1],[2],[3],[4],[5]], Json.str "en"⟩) :=
  claim_C1 7 (Json.str "en") [[1,0,0,0],[2,0,0,0],[3,0,0,0],[4,0,0,0],[5,0,0,0]]
    (by decide) 4 (by decide)

/-- The `{"type": "set_language", "language": "fr"}` control message. -/
def setFrenchMsg : InMsg :=
  InMsg.text (some (Json.obj
    [("type", Json.str "set_language"), ("language", Json.str "fr")]))

/-- C2: every cut batch is stamped with the connection's language as it
stands at the moment of the cut (first conjunct, over every state and
message), and in the concrete scenario where the language is switched to
"fr" between the first and the second batch, batch 1 carries the default
"en" and batch 2 carries "fr" (second conjunct); a batch value is never
mutated after the cut, so a later change cannot alter it. -/
theorem claim_C2 :
    (∀ (ws : Nat) (st : ConnState) (m : InMsg) (st' : ConnState) (t : AudioTask),
        websocket_endpoint_step ws st m = Except.ok (st', some t) →
        t.language = st.language) ∧
    websocket_endpoint_run 0 initConnState
        ([InMsg.binary [0,0,0,0], InMsg.binary [0,0,0,0], InMsg.binary [0,0,0,0],
          InMsg.binary [0,0,0,0], InMsg.binary [0,0,0,0],
          setFrenchMsg,
          InMsg.binary [0,0,0,0], InMsg.binary [0,0,0,0], InMsg.binary [0,0,0,0],
          InMsg.binary [0,0,0,0], InMsg.binary [0,0,0,0]]) =
      Except.ok (⟨Json.str "fr", []⟩,
        [⟨0, [[0],[0],[0],[0],[0]], Json.str "en"⟩,
         ⟨0, [[0],[0],[0],[0],[0]], Json.str "fr"⟩]) := by
  constructor
  · intro ws st m st' t h
    cases m with
    | text p =>
        cases p with
        | none => simp [websocket_endpoint_step] at h
        | some j =>
            cases j with
            | obj fields =>
                simp only [websocket_endpoint_step] at h
                split at h <;> simp_all
            | null => simp [websocket_endpoint_step] at h
            | bool b => simp [websocket_endpoint_step] at h
            | num n => simp [websocket_endpoint_step] at h
            | str s => simp [websocket_endpoint_step] at h
    | binary data =>
        simp only [websocket_endpoint_step, ingest] at h
        split at h
        · simp at h
        · split at h
          · simp only [Except.ok.injEq, Prod.mk.injEq, Option.some.injEq] at h
            rw [← h.2]
          · simp_all
  · rfl

theorem claim_C2_witness :
    (websocket_endpoint_step 3 ⟨Json.str "en", [[1],[2],[3],[4]]⟩
        (InMsg.binary [9,0,0,0]) =
      Except.ok (⟨Json.str "en", []⟩,
                 some ⟨3, [[1],[2],[3],[4],[9]], Json.str "en"⟩)) ∧
    (⟨3, [[1],[2],[3],[4],[9]], Json.str "en"⟩ : AudioTask).language =
      (⟨Json.str "en", [[1],[2],[3],[4]]⟩ : ConnState).language :=
  ⟨rfl, claim_C2.1 3 ⟨Json.str "en", [[1],[2],[3],[4]]⟩ (InMsg.binary [9,0,0,0])
      ⟨Json.str "en", []⟩ ⟨3, [[1],[2],[3],[4],[9]], Json.str "en"⟩ rfl⟩

/-- C3: ingesting a binary chunk whose byte length is not a multiple of
the 4-byte sample width is a total no-op: the step returns normally (no
exception escapes), state and buffer are unchanged, no batch is cut, and
inserting such a chunk anywhere into a message sequence leaves the entire
run — every later state and every later batch — unchanged, so its bytes
never appear in any batch. -/
theorem claim_C3 (ws : Nat) (st : ConnState) (d : List Nat)
    (h : d.length % 4 ≠ 0) :
    websocket_endpoint_step ws st (InMsg.binary d) = Except.ok (st, none) ∧
    ∀ (st₀ : ConnState) (ms₁ ms₂ : List InMsg),
      websocket_endpoint_run ws st₀ (ms₁ ++ InMsg.binary d :: ms₂) =
        websocket_endpoint_run ws st₀ (ms₁ ++ ms₂) := by
  have hstep : ∀ st₁ : ConnState,
      websocket_endpoint_step ws st₁ (InMsg.binary d) = Except.ok (st₁, none) := by
    intro st₁
    simp [websocket_endpoint_step, ingest, np_frombuffer, h]
  refine ⟨hstep st, ?_⟩
  intro st₀ ms₁ ms₂
  induction ms₁ generalizing st₀ with
  | nil =>
      simp only [List.nil_append, websocket_endpoint_run, hstep st₀]
      cases hr : websocket_endpoint_run ws st₀ ms₂ <;> simp [hr]
  | cons m ms₁ ih =>
      simp only [List.cons_append, websocket_endpoint_run]
      cases hs : websocket_endpoint_step ws st₀ m with
      | error e => rfl
      | ok p =>
          obtain ⟨st', b?⟩ := p
          simp only [List.append_eq]
          rw [ih st']

theorem claim_C3_witness :
    (websocket_endpoint_step 0 initConnState (InMsg.binary [1]) =
      Except.ok (initConnState, none)) ∧
    websocket_endpoint_run 0 initConnState
        ([InMsg.binary [2,0,0,0]] ++ InMsg.binary [1] :: [InMsg.binary [3,0,0,0]]) =
      websocket_endpoint_run 0 initConnState
        ([InMsg.binary [2,0,0,0]] ++ [InMsg.binary [3,0,0,0]]) :=
  ⟨(claim_C3 0 initConnState [1] (by decide)).1,
   (claim_C3 0 initConnState [1] (by decide)).2 initConnState
     [InMsg.binary [2,0,0,0]] [InMsg.binary [3,0,0,0]]⟩

/-- C4: when the engine call for batch `B` raises, nothing is delivered
for `B`, and the worker loop survives: processing the queue with `B` in
front is exactly processing the remaining queue (so the next batch is
still dequeued, transcribed, and delivered normally, and `B` is never
retried). -/
theorem claim_C4 (engine : Engine) (send : SendOracle)
    (registry : List (Nat × ConnState)) (B : AudioTask) (ts : List AudioTask)
    (h : engine B.chunks.flatten B.language = Except.error ()) :
    (audio_processor_step engine send registry B).delivered = none ∧
    audio_processor_run engine send registry (B :: ts) =
      audio_processor_run engine send registry ts := by
  have hstep : (audio_processor_step engine send registry B).delivered = none ∧
      (audio_processor_step engine send registry B).registry = registry := by
    unfold audio_processor_step
    split
    · exact ⟨rfl, rfl⟩
    · rename_i audio haudio
      have ha : audio = B.chunks.flatten := np_concatenate_ok haudio
      subst ha
      simp only [transcribe_audio, h]
      simp
  refine ⟨hstep.1, ?_⟩
  simp only [audio_processor_run, hstep.1, hstep.2, Option.toList_none,
    List.nil_append]

theorem claim_C4_witness :
    ((audio_processor_step (fun _ _ => Except.error ()) (fun _ _ => Except.ok ())
        [(0, initConnState)] ⟨0, [[7]], Json.str "en"⟩).delivered = none) ∧
    audio_processor_run (fun _ _ => Except.error ()) (fun _ _ => Except.ok ())
        [(0, initConnState)] [⟨0, [[7]], Json.str "en"⟩] =
      audio_processor_run (fun _ _ => Except.error ()) (fun _ _ => Except.ok ())
        [(0, initConnState)] [] :=
  claim_C4 (fun _ _ => Except.error ()) (fun _ _ => Except.ok ())
    [(0, initConnState)] ⟨0, [[7]], Json.str "en"⟩ [] rfl

/-- C7: when the text produced for batch `B` strips to the empty string
(engine returned nothing or only whitespace), no transcription message is
delivered for `B`, this raises nothing, and the rest of the queue is
processed exactly as if `B` were absent. -/
theorem claim_C7 (engine : Engine) (send : SendOracle)
    (registry : List (Nat × ConnState)) (B : AudioTask) (ts : List AudioTask)
    (h : pyStrip (transcribe_audio engine B.chunks.flatten B.language) = "") :
    (audio_processor_step engine send registry B).delivered = none ∧
    audio_processor_run engine send registry (B :: ts) =
      audio_processor_run engine send registry ts := by
  have hstep : (audio_processor_step engine send registry B).delivered = none ∧
      (audio_processor_step engine send registry B).registry = registry := by
    unfold audio_processor_step
    split
    · exact ⟨rfl, rfl⟩
    · rename_i audio haudio
      have ha : audio = B.chunks.flatten := np_concatenate_ok haudio
      subst ha
      simp [h]
  refine ⟨hstep.1, ?_⟩
  simp only [audio_processor_run, hstep.1, hstep.2, Option.toList_none,
    List.nil_append]

theorem claim_C7_witness :
    ((audio_processor_step (fun _ _ => Except.ok []) (fun _ _ => Except.ok ())
        [(0, initConnState)] ⟨0, [[7]], Json.str "en"⟩).delivered = none) ∧
    audio_processor_run (fun _ _ => Except.ok []) (fun _ _ => Except.ok ())
        [(0, initConnState)] [⟨0, [[7]], Json.str "en"⟩] =
      audio_processor_run (fun _ _ => Except.ok []) (fun _ _ => Except.ok ())
        [(0, initConnState)] [] :=
  claim_C7 (fun _ _ => Except.ok []) (fun _ _ => Except.ok ())
    [(0, initConnState)] ⟨0, [[7]], Json.str "en"⟩ [] rfl

/-- An engine that always yields one segment reading "hello". -/
def engineHello : Engine := fun _ _ => Except.ok [⟨"hello"⟩]

/-- A transport whose every send raises (dead socket). -/
def sendAlwaysFails : SendOracle := fun _ _ => Except.error ()

/-- A registry holding exactly websocket 0. -/
def registryWithZero : List (Nat × ConnState) := [(0, initConnState)]

/-- A queued task from websocket 0 with one nonempty chunk. -/
def helloTask : AudioTask := ⟨0, [[7]], Json.str "en"⟩

/-- C5 counterexample: with websocket 0 still registered and a send that
fails with a transport error, `audio_processor` attempts the send exactly
once, delivers nothing — and leaves the registry entry in place, contrary
to the claim that the connection's entry is removed. -/
theorem claim_C5_counterexample :
    registryWithZero.any (fun p => p.1 = helloTask.ws) = true ∧
    (audio_processor_step engineHello sendAlwaysFails registryWithZero
        helloTask).sendAttempts.length = 1 ∧
    (audio_processor_step engineHello sendAlwaysFails registryWithZero
        helloTask).delivered = none ∧
    (audio_processor_step engineHello sendAlwaysFails registryWithZero
        helloTask).registry = registryWithZero :=
  ⟨rfl, rfl, rfl, rfl⟩

/-- C5 amended: when the send of a transcription message fails with a
transport error, the failure is caught and only logged: nothing is
delivered, the send is not retried (at most one attempt), and the
connection's registry entry is NOT removed by the delivery path —
unregistration happens only in the connection handler's own teardown. -/
theorem claim_C5_amended (engine : Engine) (registry : List (Nat × ConnState))
    (task : AudioTask) (send : SendOracle)
    (hfail : ∀ w m, send w m = Except.error ()) :
    (audio_processor_step engine send registry task).registry = registry ∧
    (audio_processor_step engine send registry task).delivered = none ∧
    (audio_processor_step engine send registry task).sendAttempts.length ≤ 1 := by
  simp only [audio_processor_step, hfail]
  split
  · exact ⟨rfl, rfl, by simp⟩
  · split
    · split
      · exact ⟨rfl, rfl, by simp⟩
      · exact ⟨rfl, rfl, by simp⟩
    · exact ⟨rfl, rfl, by simp⟩

theorem claim_C5_witness :
    (audio_processor_step engineHello sendAlwaysFails [(1, initConnState)]
        ⟨1, [[7]], Json.str "en"⟩).registry = [(1, initConnState)] ∧
    (audio_processor_step engineHello sendAlwaysFails [(1, initConnState)]
        ⟨1, [[7]], Json.str "en"⟩).delivered = none ∧
    (audio_processor_step engineHello sendAlwaysFails [(1, initConnState)]
        ⟨1, [[7]], Json.str "en"⟩).sendAttempts.length ≤ 1 :=
  claim_C5_amended engineHello [(1, initConnState)] ⟨1, [[7]], Json.str "en"⟩
    sendAlwaysFails (fun _ _ => rfl)

/-- A task whose five chunks are all empty, so the concatenated samples
have zero length. -/
def emptyChunksTask : AudioTask := ⟨0, [[],[],[],[],[]], Json.str "en"⟩

/-- An engine that always yields no segments. -/
def engineSilent : Engine := fun _ _ => Except.ok []

/-- A transport whose every send succeeds. -/
def sendAlwaysOk : SendOracle := fun _ _ => Except.ok ()

/-- C6 counterexample: for a dequeued batch whose concatenated samples
have zero length, `audio_processor` still invokes the transcription
function (its engine-call list is nonempty), contrary to the claim that
the engine is not invoked at all. -/
theorem claim_C6_counterexample :
    np_concatenate emptyChunksTask.chunks = Except.ok [] ∧
    (audio_processor_step engineSilent sendAlwaysOk []
        emptyChunksTask).engineCalls = [([], Json.str "en")] ∧
    (audio_processor_step engineSilent sendAlwaysOk []
        emptyChunksTask).engineCalls ≠ [] := by
  refine ⟨rfl, rfl, ?_⟩
  rw [show (audio_processor_step engineSilent sendAlwaysOk []
      emptyChunksTask).engineCalls = [([], Json.str "en")] from rfl]
  exact List.cons_ne_nil _ _

/-- C6 amended: the worker has no zero-length short-circuit: a batch
whose chunks concatenate to the empty sample array still has the engine
invoked on that empty array; nothing is delivered for it whenever the
transcription text strips to empty, which makes the client-visible
outcome the same as an empty result. -/
theorem claim_C6_amended (engine : Engine) (send : SendOracle)
    (registry : List (Nat × ConnState)) (task : AudioTask)
    (h1 : task.chunks ≠ []) (h2 : task.chunks.flatten = []) :
    (audio_processor_step engine send registry task).engineCalls =
      [([], task.language)] ∧
    (pyStrip (transcribe_audio engine [] task.language) = "" →
      (audio_processor_step engine send registry task).delivered = none) := by
  have hconc : np_concatenate task.chunks = Except.ok [] := by
    cases hcs : task.chunks with
    | nil => exact absurd hcs h1
    | cons a as =>
        rw [hcs] at h2
        simp [np_concatenate, h2]
  constructor
  · simp only [audio_processor_step, hconc]
    split
    · split
      · split <;> rfl
      · rfl
    · rfl
  · intro h3
    simp only [audio_processor_step, hconc]
    simp [h3]

theorem claim_C6_witness :
    ((audio_processor_step engineSilent sendAlwaysOk []
        ⟨1, [[],[]], Json.str "en"⟩).engineCalls = [([], Json.str "en")]) ∧
    (pyStrip (transcribe_audio engineSilent [] (Json.str "en")) = "" →
      (audio_processor_step engineSilent sendAlwaysOk []
          ⟨1, [[],[]], Json.str "en"⟩).delivered = none) :=
  claim_C6_amended engineSilent sendAlwaysOk [] ⟨1, [[],[]], Json.str "en"⟩
    (by simp) rfl

/-- C8 counterexample: a text payload that parses as JSON but is not an
object (here the number 3) makes `msg.get` raise `AttributeError`, which
is not caught by the `json.JSONDecodeError` handler; the exception
reaches the outer handler and the connection is unregistered and torn
down — contrary to the claim that such messages are ignored. -/
theorem claim_C8_counterexample :
    websocket_endpoint_step 0 initConnState (InMsg.text (some (Json.num 3))) =
      Except.error () ∧
    websocket_endpoint_run 0 initConnState [InMsg.text (some (Json.num 3))] =
      Except.error () :=
  ⟨rfl, rfl⟩

/-- C8 amended: a text payload on which `json.loads` raises, and a JSON
object whose `"type"` is anything other than the string `"set_language"`,
are both ignored: the state is unchanged, no batch is cut, and the
connection stays up; but a payload parsing to a JSON non-object tears the
connection down (see the counterexample). -/
theorem claim_C8_amended (ws : Nat) (st : ConnState) :
    websocket_endpoint_step ws st (InMsg.text none) = Except.ok (st, none) ∧
    ∀ fields, isSetLanguageMsg (jsonGet fields "type") = false →
      websocket_endpoint_step ws st (InMsg.text (some (Json.obj fields))) =
        Except.ok (st, none) := by
  refine ⟨rfl, fun fields h => ?_⟩
  simp [websocket_endpoint_step, h]

theorem claim_C8_witness :
    isSetLanguageMsg (jsonGet [("type", Json.str "ping")] "type") = false ∧
    websocket_endpoint_step 0 initConnState
        (InMsg.text (some (Json.obj [("type", Json.str "ping")]))) =
      Except.ok (initConnState, none) :=
  ⟨rfl, (claim_C8_amended 0 initConnState).2 [("type", Json.str "ping")] rfl⟩

/-- C9 counterexample: the status object returned by `health_check` has
no `queue_depth` field, and has a third field `status` besides the
connection count — contrary to the claim that it contains exactly
`active_connections` and `queue_depth`. -/
theorem claim_C9_counterexample :
    jsonGet (health_check [] []) "queue_depth" = none ∧
    (health_check [] []).map Prod.fst =
      ["status", "active_connections", "queue_size"] :=
  ⟨rfl, rfl⟩

/-- C9 amended: `health_check` is a pure read-only function of the
registry and the queue; it returns exactly the fields `status` (the
string "healthy"), `active_connections` (the number of registered
connections) and `queue_size` (the number of queued batches) — the queue
field is named `queue_size`, not `queue_depth`. -/
theorem claim_C9_amended (registry : List (Nat × ConnState))
    (queue : List AudioTask) :
    (health_check registry queue).map Prod.fst =
      ["status", "active_connections", "queue_size"] ∧
    jsonGet (health_check registry queue) "status" =
      some (Json.str "healthy") ∧
    jsonGet (health_check registry queue) "active_connections" =
      some (Json.num registry.length) ∧
    jsonGet (health_check registry queue) "queue_size" =
      some (Json.num queue.length) ∧
    jsonGet (health_check registry queue) "queue_depth" = none :=
  ⟨rfl, rfl, rfl, rfl, rfl⟩

/-- C10: `transcribe_audio` is total over engine faults — when the engine
call raises, the exception is caught inside `transcribe_audio` and the
empty string is returned, which is exactly what an engine yielding no
segments (silence) returns: the caller cannot tell the two apart. -/
theorem claim_C10 (engine : Engine) (audio : List Nat) (language : Json)
    (h : engine audio language = Except.error ()) :
    transcribe_audio engine audio language = "" ∧
    transcribe_audio engine audio language =
      transcribe_audio (fun _ _ => Except.ok []) audio language := by
  unfold transcribe_audio
  rw [h]
  exact ⟨rfl, rfl⟩

theorem claim_C10_witness :
    transcribe_audio (fun _ _ => Except.error ()) [1, 2] (Json.str "en") = "" ∧
    transcribe_audio (fun _ _ => Except.error ()) [1, 2] (Json.str "en") =
      transcribe_audio (fun _ _ => Except.ok []) [1, 2] (Json.str "en") :=
  claim_C10 (fun _ _ => Except.error ()) [1, 2] (Json.str "en") rfl
